import Mathlib

/-!
# sqlset: the lookup registry

A shallow embedding of `sqlset.go`: the registry `SQLSet` (a map from set ID to
`QuerySet`), the query sets (a map from query ID to SQL body), the lookups `Get`,
`MustGet`, `GetAllMetas` and the two registration helpers.

Conventions of the embedding.

* A Go `map[string]V` that may be `nil` is an `Option (GoMap V)`: `none` is the nil map,
  `some m` an allocated map. `GoMap V` is a finite association list without repeated keys;
  the order of its entries stands for the (unspecified) iteration order of the Go map.
* A Go `(string, error)` result is a pair `String × Option GoError`, `none` being `nil`.
* Methods with a pointer receiver that write to the receiver return the new receiver.
* A call that may panic returns an `Outcome`.
-/

namespace sqlset

/-! ## Go values used by the package -/

/-- A Go map with string keys that has been allocated. -/
abbrev GoMap (V : Type) := AList (fun _ : String => V)

/-- `make(map[string]V)`. -/
def GoMap.make (V : Type) : GoMap V := ∅

/-- The entries visited by `for k, v := range m` over a possibly nil map. -/
def rangeOf {V : Type} (m : Option (GoMap V)) : List (String × V) :=
  match m with
  | none => []
  | some a => a.entries.map (fun e => (e.1, e.2))

/-- The builtin `len(m)` of a possibly nil map. -/
def lenOf {V : Type} (m : Option (GoMap V)) : Nat :=
  match m with
  | none => 0
  | some a => a.keys.length

/-- The comma-ok read `v, ok := m[k]` of a possibly nil map; `none` is `ok == false`. -/
def indexOf {V : Type} (m : Option (GoMap V)) (k : String) : Option V :=
  match m with
  | none => none
  | some a => a.lookup k

/-- The error values the package handles. `errorString` is what `errors.New` gives, `wrapError`
what `fmt.Errorf` gives for a format with one `%w`. Both are pointers in Go; `decl` names the
package-level variable holding the value (`none` for a value made during a call), so that
two values declared apart are different. -/
inductive GoError where
  | errorString (decl : String) (s : String)
  | wrapError (decl : Option String) (msg : String) (err : GoError)
  deriving DecidableEq, Repr

/-- The method `Error()`. -/
def GoError.Error : GoError → String
  | .errorString _ s => s
  | .wrapError _ msg _ => msg

/-- The method `Unwrap()`, absent on an `errorString`. -/
def GoError.Unwrap : GoError → Option GoError
  | .errorString _ _ => none
  | .wrapError _ _ err => some err

/-- The call `errors.Is(err, target)` on non-nil arguments: walk the `Unwrap` chain of `err`
and compare each link with `target`. The comparison of two pointers is the comparison of the
two terms, which `decl` makes exact for the package-level values. -/
def errorsIs : GoError → GoError → Bool
  | .errorString d s, target => decide (GoError.errorString d s = target)
  | .wrapError d msg err, target =>
    decide (GoError.wrapError d msg err = target) || errorsIs err target

/-- The call `fmt.Errorf("%s: %w", s, err)`: a fresh `wrapError` whose message is `s`, a colon,
a space and the message of `err`, and which unwraps to `err`. -/
def fmtErrorf (s : String) (err : GoError) : GoError :=
  .wrapError none (s ++ ": " ++ err.Error) err

/-- The sentinel errors of the package that `sqlset.go` refers to. Their declarations are not
in `sqlset.go`; the lookups take them as a parameter. -/
structure Sentinels where
  ErrNotFound : GoError
  ErrQuerySetNotFound : GoError
  ErrQueryNotFound : GoError

/-- Modelled from the spec: the declarations of the sentinel errors `ErrNotFound`,
`ErrQuerySetNotFound` and `ErrQueryNotFound`, which are not in `sqlset.go`. The spec has
"set not found" and "query not found" both "surface as one NotFound kind to the caller":
each of the two wraps `ErrNotFound`. -/
def declaredSentinels : Sentinels where
  ErrNotFound := .errorString "ErrNotFound" "not found"
  ErrQuerySetNotFound :=
    .wrapError (some "ErrQuerySetNotFound") "query set not found"
      (.errorString "ErrNotFound" "not found")
  ErrQueryNotFound :=
    .wrapError (some "ErrQueryNotFound") "query not found"
      (.errorString "ErrNotFound" "not found")

/-- What a call that may panic does: it returns a value or panics with an error. -/
inductive Outcome (α : Type) where
  | returns (v : α)
  | panics (err : GoError)
  deriving DecidableEq, Repr

/-! ## The data model -/

/-- The metadata of a query set. -/
structure QuerySetMeta where
  ID : String
  Name : String
  Description : String
  deriving DecidableEq, Repr

/-- A single set of queries. -/
structure QuerySet where
  meta : QuerySetMeta
  queries : Option (GoMap String)

/-- The container of the query sets, by set ID. -/
structure SQLSet where
  sets : Option (GoMap QuerySet)

/-! ## Query sets -/

/-- `GetMeta` returns the metadata of the query set. -/
def QuerySet.GetMeta (qs : QuerySet) : QuerySetMeta :=
  qs.meta

/-- `registerQuery` allocates the map when it is nil and stores `query` under `id`. -/
def QuerySet.registerQuery (qs : QuerySet) (id : String) (query : String) : QuerySet :=
  let queries : GoMap String :=
    match qs.queries with
    | none => GoMap.make String
    | some m => m
  { qs with queries := some (queries.insert id query) }

/-- `findQuery` on a query set. -/
def QuerySet.findQuery (E : Sentinels) (qs : QuerySet) (id : String) :
    String × Option GoError :=
  match qs.queries with
  | none => ("", some (fmtErrorf id E.ErrQueryNotFound))
  | some m =>
    match m.lookup id with
    | none => ("", some (fmtErrorf id E.ErrQueryNotFound))
    | some q => (q, none)

/-! ## The registry -/

/-- `findQuery` on the registry. -/
def SQLSet.findQuery (E : Sentinels) (s : SQLSet) (setID : String) (queryID : String) :
    String × Option GoError :=
  match s.sets with
  | none => ("", some (fmtErrorf setID E.ErrQuerySetNotFound))
  | some m =>
    match m.lookup setID with
    | none => ("", some (fmtErrorf setID E.ErrQuerySetNotFound))
    | some qs =>
      match qs.findQuery E queryID with
      | (_, some err) => ("", some err)
      | (q, none) => (q, none)

/-- `Get` retrieves a query by its set ID and query ID. -/
def SQLSet.Get (E : Sentinels) (s : SQLSet) (setID : String) (queryID : String) :
    String × Option GoError :=
  s.findQuery E setID queryID

/-- `MustGet` is like `Get` but panics with the error. -/
def SQLSet.MustGet (E : Sentinels) (s : SQLSet) (setID : String) (queryID : String) :
    Outcome String :=
  match s.findQuery E setID queryID with
  | (_, some err) => .panics err
  | (q, none) => .returns q

/-- `GetAllMetas` appends the metadata of every set the range over `s.sets` visits. -/
def SQLSet.GetAllMetas (s : SQLSet) : List QuerySetMeta :=
  (rangeOf s.sets).foldl (fun metas e => metas ++ [e.2.GetMeta]) []

/-- `registerQuerySet` allocates the map when it is nil and stores `qs` under `setID`. -/
def SQLSet.registerQuerySet (s : SQLSet) (setID : String) (qs : QuerySet) : SQLSet :=
  let sets : GoMap QuerySet :=
    match s.sets with
    | none => GoMap.make QuerySet
    | some m => m
  { sets := some (sets.insert setID qs) }

/-- The zero value of `SQLSet`: the map is nil. -/
def SQLSet.zero : SQLSet := { sets := none }

/-- The zero value of `QuerySet`: empty metadata and a nil map. -/
def QuerySet.zero : QuerySet := { meta := ⟨"", "", ""⟩, queries := none }

/-! ## Vocabulary for the statements -/

/-- The keys of a possibly nil map, in iteration order. -/
def keysOf {V : Type} (m : Option (GoMap V)) : List String :=
  match m with
  | none => []
  | some a => a.keys

/-- The metadata of the sets stored under the keys other than `id`, in iteration order. -/
def SQLSet.metasExcept (s : SQLSet) (id : String) : List QuerySetMeta :=
  ((rangeOf s.sets).filter (fun e => decide (e.1 ≠ id))).map (fun e => e.2.GetMeta)

/-- The registries reachable from the zero value by calls of `registerQuerySet`, whatever
the arguments. -/
inductive Reachable : SQLSet → Prop
  | zero : Reachable SQLSet.zero
  | register (s : SQLSet) (setID : String) (qs : QuerySet) :
      Reachable s → Reachable (s.registerQuerySet setID qs)

/-- The registries reachable from the zero value by calls of `registerQuerySet` that store a
query set under the ID of its own metadata. -/
inductive Loaded : SQLSet → Prop
  | zero : Loaded SQLSet.zero
  | register (s : SQLSet) (qs : QuerySet) :
      Loaded s → Loaded (s.registerQuerySet qs.GetMeta.ID qs)

/-- A query set with one query and no metadata, for the examples. -/
def sampleSet : QuerySet :=
  QuerySet.zero.registerQuery "GetData1" "SELECT 1;"

/-- A registry holding `sampleSet` under the ID `test2`, for the examples. -/
def sampleRegistry : SQLSet :=
  SQLSet.zero.registerQuerySet "test2" sampleSet

/-- A query set whose metadata carries the ID `b`, for the examples. -/
def setB : QuerySet :=
  { meta := ⟨"b", "b", ""⟩, queries := none }

/-- The registry after `registerQuerySet("a", setB)` on the zero value: `setB` is stored under
a key that is not the ID of its metadata. -/
def misfiledRegistry : SQLSet :=
  SQLSet.zero.registerQuerySet "a" setB

/-- The registry after `registerQuerySet("b", setB)` on the zero value. -/
def loadedRegistry : SQLSet :=
  SQLSet.zero.registerQuerySet setB.GetMeta.ID setB

/-! ## Lemmas on maps -/

theorem indexOf_eq_none_iff {V : Type} (m : Option (GoMap V)) (k : String) :
    indexOf m k = none ↔ k ∉ keysOf m := by
  cases m with
  | none => simp [indexOf, keysOf]
  | some a => simp [indexOf, keysOf, AList.lookup_eq_none, AList.mem_keys]

theorem indexOf_isSome_iff {V : Type} (m : Option (GoMap V)) (k : String) :
    (indexOf m k).isSome = true ↔ k ∈ keysOf m := by
  cases m with
  | none => simp [indexOf, keysOf]
  | some a => simp [indexOf, keysOf, AList.lookup_isSome, AList.mem_keys]

theorem keysOf_nodup {V : Type} (m : Option (GoMap V)) : (keysOf m).Nodup := by
  cases m with
  | none => simp [keysOf]
  | some a => exact a.keys_nodup

theorem rangeOf_keys {V : Type} (m : Option (GoMap V)) :
    (rangeOf m).map (fun e => e.1) = keysOf m := by
  cases m with
  | none => rfl
  | some a => simp [rangeOf, keysOf, AList.keys, List.keys, Function.comp_def]

theorem lenOf_eq {V : Type} (m : Option (GoMap V)) : lenOf m = (keysOf m).length := by
  cases m <;> rfl

/-- On a list without repeated keys, erasing a key keeps the entries of the other keys. -/
theorem kerase_eq_filter_ne {V : Type} (a : String) :
    ∀ l : List (Sigma (fun _ : String => V)), l.NodupKeys →
      List.kerase a l = l.filter (fun e => decide (e.1 ≠ a))
  | [], _ => rfl
  | e :: l, h => by
    have hl := List.nodupKeys_cons.1 h
    by_cases hk : a = e.1
    · have hnot : a ∉ l.keys := hk ▸ hl.1
      rw [List.kerase_cons_eq hk, List.filter_cons_of_neg (by simp [hk]),
        ← kerase_eq_filter_ne a l hl.2, List.kerase_of_not_mem_keys hnot]
    · rw [List.kerase_cons_ne hk, List.filter_cons_of_pos (by simpa using Ne.symm hk),
        kerase_eq_filter_ne a l hl.2]

/-- Reading every key of a list without repeated keys gives back its values in order. -/
theorem keys_filterMap_dlookup {V W : Type} (f : V → W) :
    ∀ l : List (Sigma (fun _ : String => V)), l.NodupKeys →
      l.keys.filterMap (fun k => (List.dlookup k l).map f) = l.map (fun e => f e.2)
  | [], _ => rfl
  | e :: l, h => by
    have hl := List.nodupKeys_cons.1 h
    obtain ⟨k, v⟩ := e
    have hrest : l.keys.filterMap (fun k' => (List.dlookup k' (⟨k, v⟩ :: l)).map f)
        = l.keys.filterMap (fun k' => (List.dlookup k' l).map f) := by
      apply List.filterMap_congr
      intro k' hk'
      have hne : k' ≠ k := fun hEq => hl.1 (hEq ▸ hk')
      rw [List.dlookup_cons_ne l ⟨k, v⟩ hne]
    rw [List.keys_cons, List.filterMap_cons, List.dlookup_cons_eq]
    simp only [Option.map_some', List.map_cons]
    rw [hrest, keys_filterMap_dlookup f l hl.2]

theorem foldl_append_singleton {α β : Type} (f : α → β) :
    ∀ (l : List α) (acc : List β),
      l.foldl (fun metas e => metas ++ [f e]) acc = acc ++ l.map f
  | [], acc => by simp
  | a :: l, acc => by simp [foldl_append_singleton f l]

/-! ## Lemmas on the lookups -/

theorem QuerySet.findQuery_of_some (E : Sentinels) (qs : QuerySet) (id q : String)
    (h : indexOf qs.queries id = some q) : qs.findQuery E id = (q, none) := by
  unfold QuerySet.findQuery
  cases hq : qs.queries with
  | none => simp [hq, indexOf] at h
  | some m =>
    have h2 : m.lookup id = some q := by simpa [hq, indexOf] using h
    simp [h2]

theorem QuerySet.findQuery_of_none (E : Sentinels) (qs : QuerySet) (id : String)
    (h : indexOf qs.queries id = none) :
    qs.findQuery E id = ("", some (fmtErrorf id E.ErrQueryNotFound)) := by
  unfold QuerySet.findQuery
  cases hq : qs.queries with
  | none => rfl
  | some m =>
    have h2 : m.lookup id = none := by simpa [hq, indexOf] using h
    simp [h2]

theorem SQLSet.findQuery_set_absent (E : Sentinels) (s : SQLSet) (setID queryID : String)
    (h : indexOf s.sets setID = none) :
    s.findQuery E setID queryID = ("", some (fmtErrorf setID E.ErrQuerySetNotFound)) := by
  unfold SQLSet.findQuery
  cases hs : s.sets with
  | none => rfl
  | some m =>
    have h2 : m.lookup setID = none := by simpa [hs, indexOf] using h
    simp [h2]

theorem SQLSet.findQuery_set_present (E : Sentinels) (s : SQLSet) (setID queryID : String)
    (qs : QuerySet) (h : indexOf s.sets setID = some qs) :
    s.findQuery E setID queryID = qs.findQuery E queryID := by
  unfold SQLSet.findQuery
  cases hs : s.sets with
  | none => simp [hs, indexOf] at h
  | some m =>
    have h2 : m.lookup setID = some qs := by simpa [hs, indexOf] using h
    simp only [h2]
    cases hq : indexOf qs.queries queryID with
    | none => rw [QuerySet.findQuery_of_none E qs queryID hq]
    | some q => rw [QuerySet.findQuery_of_some E qs queryID q hq]

theorem SQLSet.indexOf_registerQuerySet (s : SQLSet) (setID : String) (qs : QuerySet) :
    indexOf (s.registerQuerySet setID qs).sets setID = some qs := by
  simp [SQLSet.registerQuerySet, indexOf]

theorem SQLSet.indexOf_registerQuerySet_ne (s : SQLSet) (setID k : String) (qs : QuerySet)
    (h : k ≠ setID) :
    indexOf (s.registerQuerySet setID qs).sets k = indexOf s.sets k := by
  cases hs : s.sets with
  | none =>
    simp only [SQLSet.registerQuerySet, indexOf, hs, GoMap.make, AList.lookup_insert_ne h,
      AList.lookup_empty]
  | some m => simp [SQLSet.registerQuerySet, indexOf, hs, AList.lookup_insert_ne h]

theorem QuerySet.indexOf_registerQuery (qs : QuerySet) (id query : String) :
    indexOf (qs.registerQuery id query).queries id = some query := by
  simp [QuerySet.registerQuery, indexOf]

theorem QuerySet.indexOf_registerQuery_ne (qs : QuerySet) (id k query : String)
    (h : k ≠ id) :
    indexOf (qs.registerQuery id query).queries k = indexOf qs.queries k := by
  cases hq : qs.queries with
  | none =>
    simp only [QuerySet.registerQuery, indexOf, hq, GoMap.make, AList.lookup_insert_ne h,
      AList.lookup_empty]
  | some m => simp [QuerySet.registerQuery, indexOf, hq, AList.lookup_insert_ne h]

theorem SQLSet.GetAllMetas_eq_map (s : SQLSet) :
    s.GetAllMetas = (rangeOf s.sets).map (fun e => e.2.GetMeta) := by
  simp [SQLSet.GetAllMetas, foldl_append_singleton (fun e : String × QuerySet => e.2.GetMeta)]

theorem rangeOf_insert {V : Type} (m : GoMap V) (k : String) (v : V) :
    rangeOf (some (m.insert k v))
      = (k, v) :: (rangeOf (some m)).filter (fun e => decide (e.1 ≠ k)) := by
  simp only [rangeOf, AList.insert_entries, List.map_cons]
  rw [kerase_eq_filter_ne k m.entries m.nodupKeys, List.filter_map]
  rfl

theorem mem_rangeOf {V : Type} (m : Option (GoMap V)) (k : String) (v : V) :
    (k, v) ∈ rangeOf m ↔ indexOf m k = some v := by
  cases m with
  | none => simp [rangeOf, indexOf]
  | some a =>
    simp only [rangeOf, indexOf, List.mem_map]
    constructor
    · rintro ⟨⟨k0, v0⟩, hmem, heq⟩
      simp only [Prod.mk.injEq] at heq
      obtain ⟨rfl, rfl⟩ := heq
      exact AList.mem_lookup_iff.2 hmem
    · intro h
      exact ⟨⟨k, v⟩, AList.mem_lookup_iff.1 h, rfl⟩

theorem SQLSet.registerQuerySet_twice (s : SQLSet) (id : String) (a b : QuerySet) :
    (s.registerQuerySet id a).registerQuerySet id b = s.registerQuerySet id b := by
  simp [SQLSet.registerQuerySet, AList.insert_insert]

theorem QuerySet.registerQuery_twice (qs : QuerySet) (id q1 q2 : String) :
    (qs.registerQuery id q1).registerQuery id q2 = qs.registerQuery id q2 := by
  simp [QuerySet.registerQuery, AList.insert_insert]

theorem SQLSet.GetAllMetas_registerQuerySet (s : SQLSet) (id : String) (qs : QuerySet) :
    (s.registerQuerySet id qs).GetAllMetas = qs.GetMeta :: s.metasExcept id := by
  rw [SQLSet.GetAllMetas_eq_map]
  cases hs : s.sets with
  | none =>
    simp only [SQLSet.registerQuerySet, SQLSet.metasExcept, hs, GoMap.make]
    rfl
  | some m =>
    simp only [SQLSet.registerQuerySet, SQLSet.metasExcept, hs, rangeOf_insert, List.map_cons]

theorem SQLSet.metasExcept_registerQuerySet (s : SQLSet) (id : String) (qs : QuerySet) :
    (s.registerQuerySet id qs).metasExcept id = s.metasExcept id := by
  cases hs : s.sets with
  | none =>
    simp only [SQLSet.registerQuerySet, SQLSet.metasExcept, hs, GoMap.make]
    simp [rangeOf]
  | some m =>
    simp only [SQLSet.registerQuerySet, SQLSet.metasExcept, hs, rangeOf_insert]
    simp [List.filter_filter]

theorem SQLSet.keysOf_registerQuerySet (s : SQLSet) (id : String) (qs : QuerySet) :
    keysOf (s.registerQuerySet id qs).sets = id :: (keysOf s.sets).erase id := by
  cases hs : s.sets with
  | none => simp [SQLSet.registerQuerySet, keysOf, hs, GoMap.make]
  | some m => simp [SQLSet.registerQuerySet, keysOf, hs]

theorem QuerySet.keysOf_registerQuery (qs : QuerySet) (id q : String) :
    keysOf (qs.registerQuery id q).queries = id :: (keysOf qs.queries).erase id := by
  cases hq : qs.queries with
  | none => simp [QuerySet.registerQuery, keysOf, hq, GoMap.make]
  | some m => simp [QuerySet.registerQuery, keysOf, hq]

theorem SQLSet.mem_GetAllMetas (s : SQLSet) (m : QuerySetMeta) :
    m ∈ s.GetAllMetas ↔ ∃ k qs, indexOf s.sets k = some qs ∧ qs.GetMeta = m := by
  rw [SQLSet.GetAllMetas_eq_map, List.mem_map]
  constructor
  · rintro ⟨⟨k, qs⟩, hmem, heq⟩
    exact ⟨k, qs, (mem_rangeOf s.sets k qs).1 hmem, heq⟩
  · rintro ⟨k, qs, hidx, heq⟩
    exact ⟨(k, qs), (mem_rangeOf s.sets k qs).2 hidx, heq⟩

theorem errorsIs_self (e : GoError) : errorsIs e e = true := by
  cases e <;> simp [errorsIs]

/-- In a loaded registry every query set is stored under the ID of its own metadata. -/
theorem Loaded.keyed {s : SQLSet} (h : Loaded s) :
    ∀ k qs, indexOf s.sets k = some qs → qs.GetMeta.ID = k := by
  induction h with
  | zero => intro k qs hk; simp [SQLSet.zero, indexOf] at hk
  | register s0 qs0 _ ih =>
    intro k qs hk
    by_cases hEq : k = qs0.GetMeta.ID
    · subst hEq
      rw [SQLSet.indexOf_registerQuerySet] at hk
      simp only [Option.some.injEq] at hk
      rw [← hk]
    · rw [SQLSet.indexOf_registerQuerySet_ne s0 _ k qs0 hEq] at hk
      exact ih k qs hk

/-! ## Lookup -/

/-- C1: `Get` returns the stored body exactly. If `s.sets` maps `sid` to a query set whose
queries map `qid` to `b`, then `Get` returns `b` and a nil error; in particular this is so
after `registerQuery qid b` on a query set followed by `registerQuerySet sid` of that set. -/
theorem Get_returns_stored_body (E : Sentinels) :
    (∀ (s : SQLSet) (sid qid b : String) (qs : QuerySet),
      indexOf s.sets sid = some qs → indexOf qs.queries qid = some b →
        s.Get E sid qid = (b, none)) ∧
    (∀ (s : SQLSet) (qs : QuerySet) (sid qid b : String),
      (s.registerQuerySet sid (qs.registerQuery qid b)).Get E sid qid = (b, none)) := by
  have key : ∀ (s : SQLSet) (sid qid b : String) (qs : QuerySet),
      indexOf s.sets sid = some qs → indexOf qs.queries qid = some b →
        s.Get E sid qid = (b, none) := by
    intro s sid qid b qs hs hq
    unfold SQLSet.Get
    rw [SQLSet.findQuery_set_present E s sid qid qs hs, QuerySet.findQuery_of_some E qs qid b hq]
  refine ⟨key, ?_⟩
  intro s qs sid qid b
  exact key _ sid qid b _ (SQLSet.indexOf_registerQuerySet s sid _)
    (QuerySet.indexOf_registerQuery qs qid b)

/-- The statement of C1 at the sample registry. -/
theorem Get_returns_stored_body_witness :
    sampleRegistry.Get declaredSentinels "test2" "GetData1" = ("SELECT 1;", none) :=
  (Get_returns_stored_body declaredSentinels).1 sampleRegistry "test2" "GetData1" "SELECT 1;"
    sampleSet rfl rfl

/-- C2: `Get` fails exactly when a key is absent. The error is non-nil if and only if `sid` is
not a key of `s.sets` or `qid` is not a key of the queries of the set stored under `sid`; with
an error the string is empty; the registry with a nil map and the stored sets with a nil map
are among the cases, and every call returns. -/
theorem Get_fails_iff_key_absent (E : Sentinels) (s : SQLSet) (sid qid : String) :
    ((s.Get E sid qid).2 ≠ none ↔
      (sid ∉ keysOf s.sets ∨
        ∃ qs, indexOf s.sets sid = some qs ∧ qid ∉ keysOf qs.queries)) ∧
    ((s.Get E sid qid).2 ≠ none → (s.Get E sid qid).1 = "") ∧
    (SQLSet.zero.Get E sid qid).2 ≠ none ∧
    (∀ (m : QuerySetMeta), indexOf s.sets sid = some ⟨m, none⟩ → (s.Get E sid qid).2 ≠ none) := by
  unfold SQLSet.Get
  refine ⟨?_, ?_, ?_, ?_⟩
  · cases hs : indexOf s.sets sid with
    | none =>
      rw [SQLSet.findQuery_set_absent E s sid qid hs]
      have hk := (indexOf_eq_none_iff s.sets sid).1 hs
      simp [hk]
    | some qs =>
      rw [SQLSet.findQuery_set_present E s sid qid qs hs]
      have hk : sid ∈ keysOf s.sets := (indexOf_isSome_iff s.sets sid).1 (by simp [hs])
      cases hq : indexOf qs.queries qid with
      | none =>
        rw [QuerySet.findQuery_of_none E qs qid hq]
        have hq2 := (indexOf_eq_none_iff qs.queries qid).1 hq
        simp [hq2]
      | some q =>
        rw [QuerySet.findQuery_of_some E qs qid q hq]
        have hq2 : qid ∈ keysOf qs.queries :=
          (indexOf_isSome_iff qs.queries qid).1 (by simp [hq])
        simp [hk, hq2]
  · cases hs : indexOf s.sets sid with
    | none =>
      rw [SQLSet.findQuery_set_absent E s sid qid hs]
      simp
    | some qs =>
      rw [SQLSet.findQuery_set_present E s sid qid qs hs]
      cases hq : indexOf qs.queries qid with
      | none =>
        rw [QuerySet.findQuery_of_none E qs qid hq]
        simp
      | some q =>
        rw [QuerySet.findQuery_of_some E qs qid q hq]
        simp
  · simp [SQLSet.findQuery, SQLSet.zero]
  · intro m hs
    rw [SQLSet.findQuery_set_present E s sid qid _ hs]
    simp [QuerySet.findQuery]

/-- C3: `MustGet` agrees with `Get`. It panics with an error exactly when `Get` returns that
error, and it returns a string exactly when `Get` returns that string with a nil error. -/
theorem MustGet_agrees_with_Get (E : Sentinels) (s : SQLSet) (sid qid : String) :
    (∀ err, s.MustGet E sid qid = .panics err ↔ (s.Get E sid qid).2 = some err) ∧
    (∀ q, s.MustGet E sid qid = .returns q ↔ s.Get E sid qid = (q, none)) := by
  unfold SQLSet.MustGet SQLSet.Get
  rcases hres : s.findQuery E sid qid with ⟨q, _ | err⟩
  · simp
  · simp

/-- C5: every `Get` failure is of the single NotFound kind. When the two sentinels
`ErrQuerySetNotFound` and `ErrQueryNotFound` are of the kind `ErrNotFound`, every error that
`Get` returns is: the one for an absent set and the one for an absent query. -/
theorem Get_error_is_ErrNotFound (E : Sentinels)
    (hset : errorsIs E.ErrQuerySetNotFound E.ErrNotFound = true)
    (hquery : errorsIs E.ErrQueryNotFound E.ErrNotFound = true)
    (s : SQLSet) (sid qid : String) (err : GoError)
    (herr : (s.Get E sid qid).2 = some err) :
    errorsIs err E.ErrNotFound = true := by
  unfold SQLSet.Get at herr
  cases hs : indexOf s.sets sid with
  | none =>
    rw [SQLSet.findQuery_set_absent E s sid qid hs] at herr
    have h2 : fmtErrorf sid E.ErrQuerySetNotFound = err := by simpa using herr
    subst h2
    simp [fmtErrorf, errorsIs, hset]
  | some qs =>
    rw [SQLSet.findQuery_set_present E s sid qid qs hs] at herr
    cases hq : indexOf qs.queries qid with
    | none =>
      rw [QuerySet.findQuery_of_none E qs qid hq] at herr
      have h2 : fmtErrorf qid E.ErrQueryNotFound = err := by simpa using herr
      subst h2
      simp [fmtErrorf, errorsIs, hquery]
    | some q =>
      rw [QuerySet.findQuery_of_some E qs qid q hq] at herr
      simp at herr

/-- The statement of C5 at the sample registry, for a query that the stored set lacks. -/
theorem Get_error_is_ErrNotFound_witness :
    errorsIs declaredSentinels.ErrQuerySetNotFound declaredSentinels.ErrNotFound = true ∧
    errorsIs declaredSentinels.ErrQueryNotFound declaredSentinels.ErrNotFound = true ∧
    (sampleRegistry.Get declaredSentinels "test2" "unknown").2
      = some (fmtErrorf "unknown" declaredSentinels.ErrQueryNotFound) ∧
    errorsIs (fmtErrorf "unknown" declaredSentinels.ErrQueryNotFound)
      declaredSentinels.ErrNotFound = true :=
  ⟨by decide, by decide, by decide,
    Get_error_is_ErrNotFound declaredSentinels (by decide) (by decide) sampleRegistry "test2"
      "unknown" (fmtErrorf "unknown" declaredSentinels.ErrQueryNotFound) (by decide)⟩

/-- C9: `Get` tells the two not-found cases apart and a missing set comes first. When `sid` is
not a key of `s.sets`, whatever `qid`, the error wraps `ErrQuerySetNotFound` and its message
is `sid`, a colon, a space and the message of that sentinel. When `sid` is a key and `qid` is
not a key of the set stored there, the error wraps `ErrQueryNotFound`, its message is `qid`,
a colon, a space and the message of that sentinel, and the result is the one of the
`findQuery` of the query set, which `sid` does not enter. -/
theorem Get_not_found_cases (E : Sentinels) (s : SQLSet) (sid qid : String) :
    (sid ∉ keysOf s.sets →
      ∃ err, s.Get E sid qid = ("", some err) ∧
        err.Unwrap = some E.ErrQuerySetNotFound ∧
        errorsIs err E.ErrQuerySetNotFound = true ∧
        err.Error = sid ++ ": " ++ E.ErrQuerySetNotFound.Error) ∧
    (∀ qs, indexOf s.sets sid = some qs → qid ∉ keysOf qs.queries →
      ∃ err, s.Get E sid qid = ("", some err) ∧
        err.Unwrap = some E.ErrQueryNotFound ∧
        errorsIs err E.ErrQueryNotFound = true ∧
        err.Error = qid ++ ": " ++ E.ErrQueryNotFound.Error ∧
        s.Get E sid qid = qs.findQuery E qid) := by
  unfold SQLSet.Get
  constructor
  · intro hk
    have hs := (indexOf_eq_none_iff s.sets sid).2 hk
    refine ⟨fmtErrorf sid E.ErrQuerySetNotFound, SQLSet.findQuery_set_absent E s sid qid hs,
      rfl, ?_, rfl⟩
    simp [fmtErrorf, errorsIs, errorsIs_self]
  · intro qs hs hk
    have hq := (indexOf_eq_none_iff qs.queries qid).2 hk
    have hfind := SQLSet.findQuery_set_present E s sid qid qs hs
    refine ⟨fmtErrorf qid E.ErrQueryNotFound, ?_, rfl, ?_, rfl, hfind⟩
    · rw [hfind, QuerySet.findQuery_of_none E qs qid hq]
    · simp [fmtErrorf, errorsIs, errorsIs_self]

/-- The statement of C9 at the sample registry, for a set that is not registered. -/
theorem Get_not_found_cases_witness :
    ∃ err, sampleRegistry.Get declaredSentinels "test3" "GetData1" = ("", some err) ∧
      err.Unwrap = some declaredSentinels.ErrQuerySetNotFound ∧
      errorsIs err declaredSentinels.ErrQuerySetNotFound = true ∧
      err.Error = "test3" ++ ": " ++ declaredSentinels.ErrQuerySetNotFound.Error :=
  (Get_not_found_cases declaredSentinels sampleRegistry "test3" "GetData1").1 (by decide)

/-! ## Metadata -/

/-- C4: `GetAllMetas` returns one metadata record per registered set. Its length is the number
of set IDs in `s.sets`, which are distinct; up to order it is the list of the `GetMeta` of the
set stored under each of these IDs; for the zero value it is empty. -/
theorem GetAllMetas_one_per_set (s : SQLSet) :
    s.GetAllMetas.length = lenOf s.sets ∧
    s.GetAllMetas.length = (keysOf s.sets).length ∧
    (keysOf s.sets).Nodup ∧
    (∀ k, k ∈ keysOf s.sets → (indexOf s.sets k).isSome = true) ∧
    List.Perm s.GetAllMetas
      ((keysOf s.sets).filterMap (fun k => (indexOf s.sets k).map QuerySet.GetMeta)) ∧
    SQLSet.zero.GetAllMetas = [] := by
  have hlen : s.GetAllMetas.length = (keysOf s.sets).length := by
    rw [SQLSet.GetAllMetas_eq_map, ← rangeOf_keys, List.length_map, List.length_map]
  refine ⟨by rw [lenOf_eq]; exact hlen, hlen, keysOf_nodup s.sets,
    fun k hk => (indexOf_isSome_iff s.sets k).2 hk, ?_, rfl⟩
  rw [SQLSet.GetAllMetas_eq_map]
  cases hs : s.sets with
  | none => simp [rangeOf, keysOf]
  | some a =>
    have h := keys_filterMap_dlookup QuerySet.GetMeta a.entries a.nodupKeys
    have h2 : (rangeOf (some a)).map (fun e => e.2.GetMeta)
        = a.entries.map (fun e => e.2.GetMeta) := by
      simp [rangeOf, Function.comp_def]
    rw [h2, ← h]
    exact List.Perm.refl _

/-! ## Registration -/

/-- C6: a later set with the same set ID overwrites the former. After `registerQuerySet id a`
and then `registerQuerySet id b`, `Get id qid` returns what `findQuery qid` on `b` returns,
so a query that `b` lacks is not found; `GetAllMetas` holds the metadata of `b` and those of
the sets stored under the other IDs, where after the first call it held that of `a` and the
same others; the number of sets is that after the first call. -/
theorem registerQuerySet_overwrites (E : Sentinels) (s : SQLSet) (id : String)
    (a b : QuerySet) :
    (∀ qid, ((s.registerQuerySet id a).registerQuerySet id b).Get E id qid
        = b.findQuery E qid) ∧
    (∀ qid, qid ∉ keysOf b.queries →
        (((s.registerQuerySet id a).registerQuerySet id b).Get E id qid).2 ≠ none) ∧
    List.Perm ((s.registerQuerySet id a).registerQuerySet id b).GetAllMetas
      (b.GetMeta :: s.metasExcept id) ∧
    List.Perm (s.registerQuerySet id a).GetAllMetas (a.GetMeta :: s.metasExcept id) ∧
    ((s.registerQuerySet id a).registerQuerySet id b).GetAllMetas.length
      = (s.registerQuerySet id a).GetAllMetas.length ∧
    lenOf ((s.registerQuerySet id a).registerQuerySet id b).sets
      = lenOf (s.registerQuerySet id a).sets := by
  have hget : ∀ qid, ((s.registerQuerySet id a).registerQuerySet id b).Get E id qid
      = b.findQuery E qid := by
    intro qid
    unfold SQLSet.Get
    exact SQLSet.findQuery_set_present E _ id qid b (SQLSet.indexOf_registerQuerySet _ id b)
  refine ⟨hget, ?_, ?_, ?_, ?_, ?_⟩
  · intro qid hq
    rw [hget, QuerySet.findQuery_of_none E b qid ((indexOf_eq_none_iff b.queries qid).2 hq)]
    simp
  · rw [SQLSet.registerQuerySet_twice, SQLSet.GetAllMetas_registerQuerySet]
  · rw [SQLSet.GetAllMetas_registerQuerySet]
  · rw [SQLSet.registerQuerySet_twice, SQLSet.GetAllMetas_registerQuerySet,
      SQLSet.GetAllMetas_registerQuerySet]
    simp
  · rw [SQLSet.registerQuerySet_twice, lenOf_eq, lenOf_eq, SQLSet.keysOf_registerQuerySet,
      SQLSet.keysOf_registerQuerySet]

/-- C8: within one set a repeated query ID is resolved last-occurrence-wins. After
`registerQuery id q1` and then `registerQuery id q2` on any query set, the zero value
included, `findQuery id` returns `q2` and a nil error, `id` is one key of the set, and the
number of queries is that after the first call. -/
theorem registerQuery_last_wins (E : Sentinels) (qs : QuerySet) (id q1 q2 : String) :
    ((qs.registerQuery id q1).registerQuery id q2).findQuery E id = (q2, none) ∧
    (keysOf ((qs.registerQuery id q1).registerQuery id q2).queries).count id = 1 ∧
    lenOf ((qs.registerQuery id q1).registerQuery id q2).queries
      = lenOf (qs.registerQuery id q1).queries ∧
    ((QuerySet.zero.registerQuery id q1).registerQuery id q2).findQuery E id = (q2, none) ∧
    lenOf ((QuerySet.zero.registerQuery id q1).registerQuery id q2).queries = 1 := by
  have hfind : ∀ qs0 : QuerySet,
      ((qs0.registerQuery id q1).registerQuery id q2).findQuery E id = (q2, none) :=
    fun qs0 => QuerySet.findQuery_of_some E _ id q2 (QuerySet.indexOf_registerQuery _ id q2)
  refine ⟨hfind qs, ?_, ?_, hfind _, ?_⟩
  · apply List.count_eq_one_of_mem (keysOf_nodup _)
    rw [QuerySet.keysOf_registerQuery]
    exact List.mem_cons_self _ _
  · rw [QuerySet.registerQuery_twice, lenOf_eq, lenOf_eq, QuerySet.keysOf_registerQuery,
      QuerySet.keysOf_registerQuery]
  · rw [QuerySet.registerQuery_twice, lenOf_eq, QuerySet.keysOf_registerQuery]
    simp [QuerySet.zero, keysOf]

/-- C10: registration touches only its own key. `registerQuerySet id qs` leaves the result of
`Get id' q` unchanged for every `id'` other than `id`, leaves the metadata of the sets
stored under the other IDs unchanged, and makes `GetAllMetas` the metadata of `qs` with
these; `registerQuery k body` leaves the result of `findQuery k'` unchanged for every `k'`
other than `k`, and leaves `GetMeta` unchanged. -/
theorem registration_frame (E : Sentinels) :
    (∀ (s : SQLSet) (id id' : String) (qs : QuerySet) (q : String), id' ≠ id →
      (s.registerQuerySet id qs).Get E id' q = s.Get E id' q) ∧
    (∀ (s : SQLSet) (id : String) (qs : QuerySet),
      (s.registerQuerySet id qs).metasExcept id = s.metasExcept id ∧
      List.Perm (s.registerQuerySet id qs).GetAllMetas (qs.GetMeta :: s.metasExcept id)) ∧
    (∀ (qs : QuerySet) (k k' body : String), k' ≠ k →
      (qs.registerQuery k body).findQuery E k' = qs.findQuery E k') ∧
    (∀ (qs : QuerySet) (k body : String),
      (qs.registerQuery k body).GetMeta = qs.GetMeta) := by
  refine ⟨?_, ?_, ?_, ?_⟩
  · intro s id id' qs q hne
    unfold SQLSet.Get
    have hidx := SQLSet.indexOf_registerQuerySet_ne s id id' qs hne
    cases hs : indexOf s.sets id' with
    | none =>
      rw [SQLSet.findQuery_set_absent E s id' q hs,
        SQLSet.findQuery_set_absent E _ id' q (hidx.trans hs)]
    | some qs0 =>
      rw [SQLSet.findQuery_set_present E s id' q qs0 hs,
        SQLSet.findQuery_set_present E _ id' q qs0 (hidx.trans hs)]
  · intro s id qs
    refine ⟨SQLSet.metasExcept_registerQuerySet s id qs, ?_⟩
    rw [SQLSet.GetAllMetas_registerQuerySet]
  · intro qs k k' body hne
    have hidx := QuerySet.indexOf_registerQuery_ne qs k k' body hne
    cases hq : indexOf qs.queries k' with
    | none =>
      rw [QuerySet.findQuery_of_none E qs k' hq,
        QuerySet.findQuery_of_none E _ k' (hidx.trans hq)]
    | some q0 =>
      rw [QuerySet.findQuery_of_some E qs k' q0 hq,
        QuerySet.findQuery_of_some E _ k' q0 (hidx.trans hq)]
  · intro qs k body
    rfl

/-- The statement of C10 at the sample registry: registering under `test3` leaves the lookup
under `test2` as it was. -/
theorem registration_frame_witness :
    (sampleRegistry.registerQuerySet "test3" setB).Get declaredSentinels "test2" "GetData1"
      = sampleRegistry.Get declaredSentinels "test2" "GetData1" :=
  (registration_frame declaredSentinels).1 sampleRegistry "test3" "test2" setB "GetData1"
    (by decide)

/-! ## The registry invariant -/

/-- C7, as stated, fails: `registerQuerySet("a", qs)` with a `qs` whose metadata has the ID
`b` stores `qs` under `a`; `GetAllMetas` then returns that metadata and `Get` with its ID
fails with the error of an absent set. -/
theorem registry_keyed_by_any_call_fails :
    Reachable misfiledRegistry ∧
    indexOf misfiledRegistry.sets "a" = some setB ∧
    setB.GetMeta.ID ≠ "a" ∧
    setB.GetMeta ∈ misfiledRegistry.GetAllMetas ∧
    misfiledRegistry.Get declaredSentinels setB.GetMeta.ID "q"
      = ("", some (fmtErrorf "b" declaredSentinels.ErrQuerySetNotFound)) :=
  ⟨Reachable.register SQLSet.zero "a" setB Reachable.zero, rfl, by decide, by decide, rfl⟩

/-- C7, amended: in every registry reachable from the zero value by calls of
`registerQuerySet` that pass the ID of the metadata of the set they store, every query set is
stored under the key equal to the ID of its metadata; for every `m` of `GetAllMetas` the
lookup `Get m.ID q` reaches the set with the metadata `m`, so it does not fail for an absent
set; and the IDs in `GetAllMetas` are pairwise distinct. -/
theorem loaded_registry_keyed_by_meta_ID (s : SQLSet) (h : Loaded s) :
    (∀ k qs, indexOf s.sets k = some qs → qs.GetMeta.ID = k) ∧
    (∀ m, m ∈ s.GetAllMetas →
      m.ID ∈ keysOf s.sets ∧
      ∃ qs, indexOf s.sets m.ID = some qs ∧ qs.GetMeta = m ∧
        ∀ (E : Sentinels) (q : String), s.Get E m.ID q = qs.findQuery E q) ∧
    (s.GetAllMetas.map (fun m => m.ID)).Nodup := by
  have hkey := h.keyed
  refine ⟨hkey, ?_, ?_⟩
  · intro m hm
    obtain ⟨k, qs, hidx, hmeta⟩ := (SQLSet.mem_GetAllMetas s m).1 hm
    have hk : m.ID = k := by rw [← hmeta]; exact hkey k qs hidx
    rw [hk]
    refine ⟨(indexOf_isSome_iff s.sets k).1 (by simp [hidx]), qs, hidx, hmeta, ?_⟩
    intro E q
    exact SQLSet.findQuery_set_present E s k q qs hidx
  · have hids : s.GetAllMetas.map (fun m => m.ID) = keysOf s.sets := by
      rw [SQLSet.GetAllMetas_eq_map, List.map_map, ← rangeOf_keys]
      apply List.map_congr_left
      intro e he
      exact hkey e.1 e.2 ((mem_rangeOf s.sets e.1 e.2).1 he)
    rw [hids]
    exact keysOf_nodup s.sets

/-- The statement of the amended C7 at a registry loaded with one set. -/
theorem loaded_registry_keyed_by_meta_ID_witness :
    Loaded loadedRegistry ∧
    (loadedRegistry.GetAllMetas.map (fun m => m.ID)).Nodup :=
  ⟨Loaded.register SQLSet.zero setB Loaded.zero,
    (loaded_registry_keyed_by_meta_ID loadedRegistry
      (Loaded.register SQLSet.zero setB Loaded.zero)).2.2⟩

end sqlset
